import Mathlib

/-!
Verification of the Dysgair ASR-analysis code (Python sources under `src/api/analysis/`)
against its natural-language specification.

Each Python function relevant to the checked claims is shallowly embedded as a Lean
definition below, keeping the source's names and control flow.  Machine floats are
modelled as exact rationals (`ℚ`), with a dedicated `PyF` type carrying the NaN and
infinity values where the code tests for them; real-valued computations involving
square roots are modelled over `ℝ`.
-/

/- ------------------------------------------------------------------ -/
/- text_processing.py : character classification                       -/
/- ------------------------------------------------------------------ -/

/-- Embeds `WELSH_VOWELS = set('aeiouyẃâêîôûŵŷàèìòùẁỳäëïöüẅÿ')`
(`src/api/analysis/text_processing.py`, line 12). -/
def WELSH_VOWELS : List Char := "aeiouyẃâêîôûŵŷàèìòùẁỳäëïöüẅÿ".toList

/-- Embeds `WELSH_CONSONANTS = set('bcdfghjklmnpqrstvxz')`
(`src/api/analysis/text_processing.py`, line 13). -/
def WELSH_CONSONANTS : List Char := "bcdfghjklmnpqrstvxz".toList

/-- Python `token.startswith(c)` for a single-character needle `c`. -/
def strStartsWithChar (s : String) (c : Char) : Bool :=
  match s.toList with
  | [] => false
  | d :: _ => d = c

/-- Python `token.endswith(c)` for a single-character needle `c`. -/
def strEndsWithChar (s : String) (c : Char) : Bool :=
  match s.toList.getLast? with
  | none => false
  | some d => d = c

/-- Embeds `WelshTextProcessor.classify_token`
(`src/api/analysis/text_processing.py`, lines 147-169): a digraph marker `⟨..⟩`
is "digraph"; a single character is looked up (case-sensitively, as in the
source) in `WELSH_VOWELS` then `WELSH_CONSONANTS`; everything else is "other". -/
def classify_token (token : String) : String :=
  if strStartsWithChar token '⟨' && strEndsWithChar token '⟩' then "digraph"
  else
    match token.toList with
    | [c] =>
      if c ∈ WELSH_VOWELS then "vowel"
      else if c ∈ WELSH_CONSONANTS then "consonant"
      else "other"
    | _ => "other"

/- ------------------------------------------------------------------ -/
/- linguistic_analysis.py : per-category accumulation                  -/
/- ------------------------------------------------------------------ -/

/-- One `{"total": _, "errors": _}` cell of `category_stats`
(`src/api/analysis/linguistic_analysis.py`, lines 52-57; confusion sub-dict
omitted, it is modelled separately for the emission claims). -/
structure CatStats where
  total : Nat
  errors : Nat
deriving DecidableEq, Repr

/-- The four keys of `category_stats`. -/
structure CategoryAcc where
  vowel : CatStats
  consonant : CatStats
  digraph : CatStats
  allCat : CatStats
deriving DecidableEq, Repr

/-- `total += 1`, and `errors += 1` when the operation is an error. -/
def bumpCat (s : CatStats) (isError : Bool) : CatStats :=
  { total := s.total + 1, errors := s.errors + (if isError then 1 else 0) }

/-- Embeds the per-operation accumulation of
`LinguisticAnalyzer._analyze_model_errors_by_category`
(`src/api/analysis/linguistic_analysis.py`, lines 106-125): the reference-side
token is classified, the matching category (if any: "other" is not a key of
`category_stats`) is bumped, and the "all" category is always bumped. -/
def updateCategoryAcc (acc : CategoryAcc) (op : String × String × String) : CategoryAcc :=
  let refChar := op.2.1
  let hypChar := op.2.2
  let refCategory := classify_token refChar
  let isError : Bool := refChar ≠ hypChar
  let acc1 :=
    if refCategory = "vowel" then { acc with vowel := bumpCat acc.vowel isError }
    else if refCategory = "consonant" then { acc with consonant := bumpCat acc.consonant isError }
    else if refCategory = "digraph" then { acc with digraph := bumpCat acc.digraph isError }
    else acc
  { acc1 with allCat := bumpCat acc1.allCat isError }

/- ------------------------------------------------------------------ -/
/- metrics.py : safe_divide over a float model with NaN/Infinity       -/
/- ------------------------------------------------------------------ -/

/-- A Python float: a finite value (modelled exactly as a rational), NaN,
or a signed infinity. -/
inductive PyF where
  | fin : ℚ → PyF
  | nan : PyF
  | inf : PyF
  | ninf : PyF
deriving DecidableEq, Repr

/-- `np.isnan`. -/
def PyF.isNaN : PyF → Bool
  | .nan => true
  | _ => false

/-- `np.isinf` (true for both infinities). -/
def PyF.isInfinite : PyF → Bool
  | .inf => true
  | .ninf => true
  | _ => false

/-- Python `x == 0` on floats: true exactly for the finite value zero
(NaN and the infinities compare unequal to 0). -/
def PyF.isZero : PyF → Bool
  | .fin q => q = 0
  | _ => false

/-- IEEE-style float division (the division-by-zero case is mapped to NaN;
`safe_divide` never reaches it because of its zero-denominator guard). -/
def pyDiv : PyF → PyF → PyF
  | .nan, _ => .nan
  | .fin a, .fin b => if b = 0 then .nan else .fin (a / b)
  | .fin _, .inf => .fin 0
  | .fin _, .ninf => .fin 0
  | .fin _, .nan => .nan
  | .inf, .fin b => if b < 0 then .ninf else .inf
  | .ninf, .fin b => if b < 0 then .inf else .ninf
  | .inf, _ => .nan
  | .ninf, _ => .nan

/-- Embeds `MetricsCalculator.safe_divide` (`src/api/analysis/metrics.py`,
lines 35-53).  The `default` argument is a finite float, as in the source
(its default value is `0.0`, and every call site passes a finite number). -/
def safe_divide (numerator denominator : PyF) (default : ℚ) : PyF :=
  if denominator.isZero || denominator.isNaN || numerator.isNaN then .fin default
  else
    let result := pyDiv numerator denominator
    if result.isInfinite || result.isNaN then .fin default
    else result

/- ------------------------------------------------------------------ -/
/- model_comparison.py : error_cost_analysis counting                  -/
/- ------------------------------------------------------------------ -/

/-- The counters of `calculate_error_costs`
(`src/api/analysis/model_comparison.py`, lines 680-686). -/
structure ErrorCosts where
  falseAcceptance : Nat
  falseRejection : Nat
  truePositive : Nat
  trueNegative : Nat
  total : Nat
deriving DecidableEq, Repr

/-- One loop iteration of `calculate_error_costs`
(`src/api/analysis/model_comparison.py`, lines 699-757).  An entry is its
attribution label together with the already-computed `asr_matches_target`
comparison (in the source, equality of the normalized ASR output with the
normalized target). -/
def errorCostsStep (acc : ErrorCosts) (e : String × Bool) : ErrorCosts :=
  let attribution := e.1
  let asrMatchesTarget := e.2
  if attribution = "" then acc
  else
    let acc := { acc with total := acc.total + 1 }
    if attribution = "USER_ERROR" then
      if asrMatchesTarget then { acc with falseAcceptance := acc.falseAcceptance + 1 }
      else { acc with trueNegative := acc.trueNegative + 1 }
    else if attribution = "CORRECT" then
      if asrMatchesTarget then { acc with truePositive := acc.truePositive + 1 }
      else { acc with falseRejection := acc.falseRejection + 1 }
    else if attribution = "ASR_ERROR" then
      { acc with falseRejection := acc.falseRejection + 1 }
    else acc

/-- Embeds the counting loop of `calculate_error_costs`. -/
def calculate_error_costs (entries : List (String × Bool)) : ErrorCosts :=
  entries.foldl errorCostsStep
    { falseAcceptance := 0, falseRejection := 0, truePositive := 0,
      trueNegative := 0, total := 0 }

/-- Embeds the pedagogical risk score
(`src/api/analysis/model_comparison.py`, lines 775-781):
`(false_acceptance_count * 3 + false_rejection_count) / total_count * 100`,
or `0` when `total_count == 0`. -/
def pedagogical_risk_score (c : ErrorCosts) : ℚ :=
  if c.total = 0 then 0
  else ((c.falseAcceptance : ℚ) * 3 + (c.falseRejection : ℚ)) / (c.total : ℚ) * 100

/- ------------------------------------------------------------------ -/
/- Theorems for claims C5, C6, C9, C10                                 -/
/- ------------------------------------------------------------------ -/

/-- Claim C6: `safe_divide(x, 0, d) = d` for every numerator `x` and every
default `d`, and for all inputs the returned value is neither NaN nor an
infinity (the default being a finite float, as in the source where it is
`0.0`). -/
theorem safe_divide_spec :
    (∀ (x : PyF) (d : ℚ), safe_divide x (.fin 0) d = .fin d) ∧
    (∀ (x y : PyF) (d : ℚ),
      (safe_divide x y d).isNaN = false ∧ (safe_divide x y d).isInfinite = false) := by
  constructor
  · intro x d
    simp [safe_divide, PyF.isZero]
  · intro x y d
    unfold safe_divide
    split
    · simp [PyF.isNaN, PyF.isInfinite]
    · cases hp : pyDiv x y <;> simp [PyF.isNaN, PyF.isInfinite]

/-- Claim C5 (counterexample): on attribution labels
`[CORRECT, CORRECT, ASR_ERROR, USER_ERROR]` with target-match flags
`[true, false, false, true]`, the code does NOT produce falseRejection 1 with
risk score 100: `ASR_ERROR` entries are counted as false rejections
unconditionally, in addition to the `(CORRECT, no-match)` one. -/
theorem error_cost_example_counterexample :
    ((calculate_error_costs
        [("CORRECT", true), ("CORRECT", false), ("ASR_ERROR", false), ("USER_ERROR", true)]).falseRejection
      == 1) = false ∧
    (pedagogical_risk_score (calculate_error_costs
        [("CORRECT", true), ("CORRECT", false), ("ASR_ERROR", false), ("USER_ERROR", true)])
      == 100) = false := by
  have h : calculate_error_costs
      [("CORRECT", true), ("CORRECT", false), ("ASR_ERROR", false), ("USER_ERROR", true)] =
      { falseAcceptance := 1, falseRejection := 2, truePositive := 1,
        trueNegative := 0, total := 4 } := by decide
  rw [h]
  refine ⟨by decide, ?_⟩
  have h2 : pedagogical_risk_score
      { falseAcceptance := 1, falseRejection := 2, truePositive := 1,
        trueNegative := 0, total := 4 } = 125 := by
    norm_num [pedagogical_risk_score]
  rw [h2]
  decide

/-- Claim C5 (amended): on that input the result has falseAcceptance 1,
falseRejection 2 (the `(CORRECT, false)` entry and the `ASR_ERROR` entry),
truePositive 1, trueNegative 0, total 4, and pedagogical risk score
`(3*1 + 2)/4*100 = 125`. -/
theorem error_cost_example_counts :
    calculate_error_costs
        [("CORRECT", true), ("CORRECT", false), ("ASR_ERROR", false), ("USER_ERROR", true)] =
      { falseAcceptance := 1, falseRejection := 2, truePositive := 1,
        trueNegative := 0, total := 4 } ∧
    pedagogical_risk_score (calculate_error_costs
        [("CORRECT", true), ("CORRECT", false), ("ASR_ERROR", false), ("USER_ERROR", true)]) = 125 := by
  have h : calculate_error_costs
      [("CORRECT", true), ("CORRECT", false), ("ASR_ERROR", false), ("USER_ERROR", true)] =
      { falseAcceptance := 1, falseRejection := 2, truePositive := 1,
        trueNegative := 0, total := 4 } := by decide
  refine ⟨h, ?_⟩
  rw [h]
  norm_num [pedagogical_risk_score]

/-- Claim C9 (counterexample): `classify_token` is case-sensitive: the
uppercase vowel `"A"` is classified `"other"`, not `"vowel"`, and differs
from the classification of its lowercase form `"a"`. -/
theorem classify_token_case_counterexample :
    classify_token "A" = "other" ∧
    (classify_token "A" == "vowel") = false ∧
    (classify_token "A" == classify_token "a") = false := by
  decide

/-- Claim C9 (amended): single characters are matched case-sensitively
against the fixed lowercase vowel and consonant sets: every uppercase ASCII
letter is classified `"other"`, while `"a"` is `"vowel"` and `"b"` is
`"consonant"`. -/
theorem classify_token_case_sensitive :
    (∀ c ∈ "ABCDEFGHIJKLMNOPQRSTUVWXYZ".toList, classify_token (String.mk [c]) = "other") ∧
    classify_token "a" = "vowel" ∧ classify_token "b" = "consonant" := by
  refine ⟨?_, by decide, by decide⟩
  decide

/-- Witness for `classify_token_case_sensitive` at the concrete uppercase
letters `A` and `B`. -/
theorem classify_token_case_sensitive_witness :
    classify_token (String.mk ['A']) = "other" ∧ classify_token (String.mk ['B']) = "other" :=
  ⟨classify_token_case_sensitive.1 'A' (by decide),
   classify_token_case_sensitive.1 'B' (by decide)⟩

/-- Claim C10: the plain character `'w'` belongs to neither `WELSH_VOWELS`
nor `WELSH_CONSONANTS`, so `classify_token "w" = "other"` (while the
accented `"ŵ"` is a vowel); consequently an alignment operation whose
reference token is `"w"` changes neither the vowel nor the consonant tally
of the per-category accumulation. -/
theorem classify_token_w_other :
    classify_token "w" = "other" ∧
    WELSH_VOWELS.contains 'w' = false ∧
    WELSH_CONSONANTS.contains 'w' = false ∧
    classify_token "ŵ" = "vowel" ∧
    ∀ (acc : CategoryAcc) (opName hypTok : String),
      (updateCategoryAcc acc (opName, "w", hypTok)).vowel = acc.vowel ∧
      (updateCategoryAcc acc (opName, "w", hypTok)).consonant = acc.consonant := by
  refine ⟨by decide, by decide, by decide, by decide, ?_⟩
  intro acc opName hypTok
  constructor
  · simp [updateCategoryAcc, show classify_token "w" = "other" from by decide]
  · simp [updateCategoryAcc, show classify_token "w" = "other" from by decide]

/- ------------------------------------------------------------------ -/
/- metrics.py : calculate_cohens_d over the reals                      -/
/- ------------------------------------------------------------------ -/

/-- `np.mean` over a list of reals. -/
noncomputable def nmean (l : List ℝ) : ℝ := l.sum / l.length

/-- `np.std(data, ddof=1)`: square root of the Bessel-corrected sample
variance. -/
noncomputable def np_std_ddof1 (l : List ℝ) : ℝ :=
  Real.sqrt ((l.map (fun x => (x - nmean l)^2)).sum / (l.length - 1))

/-- The pooled standard deviation of `calculate_cohens_d`
(`src/api/analysis/metrics.py`, line 86):
`sqrt(((n1-1)*std1**2 + (n2-1)*std2**2) / (n1+n2-2))`. -/
noncomputable def pooled_std (A B : List ℝ) : ℝ :=
  Real.sqrt ((((A.length : ℝ) - 1) * (np_std_ddof1 A)^2 + ((B.length : ℝ) - 1) * (np_std_ddof1 B)^2)
    / ((A.length : ℝ) + (B.length : ℝ) - 2))

open Classical in
/-- Embeds `MetricsCalculator.calculate_cohens_d`
(`src/api/analysis/metrics.py`, lines 55-92): `0.0` when either sample has
fewer than 2 observations or the pooled standard deviation is `0`, otherwise
`(mean1 - mean2) / pooled_std`.  The final `safe_float` wrap of the source is
the identity here, since a real number is never NaN or infinite. -/
noncomputable def calculate_cohens_d (A B : List ℝ) : ℝ :=
  if A.length < 2 ∨ B.length < 2 then 0
  else if pooled_std A B = 0 then 0
  else (nmean A - nmean B) / pooled_std A B

/-- The pooled standard deviation is symmetric in its two samples. -/
theorem pooled_std_comm (A B : List ℝ) : pooled_std A B = pooled_std B A := by
  unfold pooled_std
  congr 1
  ring

/-- Claim C7: `calculate_cohens_d A A = 0`; swapping the samples flips the
sign; and the result is `0` whenever either list has fewer than 2 elements
or the pooled standard deviation is `0`. -/
theorem cohens_d_props :
    (∀ A : List ℝ, calculate_cohens_d A A = 0) ∧
    (∀ A B : List ℝ, calculate_cohens_d A B = -calculate_cohens_d B A) ∧
    (∀ A B : List ℝ, ((A.length < 2 ∨ B.length < 2) ∨ pooled_std A B = 0) →
      calculate_cohens_d A B = 0) := by
  refine ⟨?_, ?_, ?_⟩
  · intro A
    unfold calculate_cohens_d
    split_ifs <;> simp
  · intro A B
    unfold calculate_cohens_d
    by_cases h1 : A.length < 2 ∨ B.length < 2
    · rw [if_pos h1, if_pos (Or.symm h1)]
      simp
    · rw [if_neg h1, if_neg (fun h => h1 (Or.symm h))]
      by_cases h2 : pooled_std A B = 0
      · rw [if_pos h2, if_pos ((pooled_std_comm B A).trans h2 : pooled_std B A = 0)]
        simp
      · rw [if_neg h2, if_neg (fun h => h2 ((pooled_std_comm A B).trans h))]
        rw [pooled_std_comm B A, ← neg_div, neg_sub]
  · intro A B h
    unfold calculate_cohens_d
    split_ifs with h1 h2
    · rfl
    · rfl
    · exact absurd h (by tauto)

/-- Witness for `cohens_d_props` at the one-element samples `[0]` and `[1]`
(the first sample has fewer than 2 observations). -/
theorem cohens_d_props_witness : calculate_cohens_d [0] [1] = 0 :=
  cohens_d_props.2.2 [0] [1] (Or.inl (Or.inl (by decide)))

/- ------------------------------------------------------------------ -/
/- model_comparison.py : hybrid_best_case_analysis                     -/
/- ------------------------------------------------------------------ -/

/-- `np.mean` over rationals. -/
def qmean (l : List ℚ) : ℚ := l.sum / l.length

/-- The entries kept by `hybrid_best_case_analysis`
(`src/api/analysis/model_comparison.py`, lines 118-124): an entry is the pair
of its optional `CERWhisperLenient` and `CERWav2Vec2Lenient` fields, and only
entries where both are present are used. -/
def validPairs (entries : List (Option ℚ × Option ℚ)) : List (ℚ × ℚ) :=
  entries.filterMap fun e =>
    match e with
    | (some w, some v) => some (w, v)
    | _ => none

/-- `hybrid_mean_cer = np.mean(hybrid_cers)` where each hybrid value is the
minimum of the two lenient CERs (`src/api/analysis/model_comparison.py`,
lines 126-147). -/
def hybrid_mean_cer (entries : List (Option ℚ × Option ℚ)) : ℚ :=
  qmean ((validPairs entries).map fun p => min p.1 p.2)

/-- `whisper_norm_mean`: mean of `CERWhisperLenient` over the same valid
subset (`src/api/analysis/model_comparison.py`, lines 161-162). -/
def whisper_lenient_mean (entries : List (Option ℚ × Option ℚ)) : ℚ :=
  qmean ((validPairs entries).map Prod.fst)

/-- `wav2vec2_norm_mean`: mean of `CERWav2Vec2Lenient` over the same valid
subset (`src/api/analysis/model_comparison.py`, lines 165-166). -/
def wav2vec2_lenient_mean (entries : List (Option ℚ × Option ℚ)) : ℚ :=
  qmean ((validPairs entries).map Prod.snd)

/-- Claim C4: over any entry list whose matched subset (both lenient CERs
present) is nonempty, the hybrid mean is at most the minimum of the two
per-model lenient means computed over the same subset. -/
theorem hybrid_mean_le_min (entries : List (Option ℚ × Option ℚ))
    (h : validPairs entries ≠ []) :
    hybrid_mean_cer entries ≤
      min (whisper_lenient_mean entries) (wav2vec2_lenient_mean entries) := by
  have hl : 0 < ((validPairs entries).length : ℚ) := by
    have := List.length_pos.mpr h
    exact_mod_cast this
  apply le_min
  · unfold hybrid_mean_cer whisper_lenient_mean qmean
    simp only [List.length_map]
    rw [div_le_div_iff_of_pos_right hl]
    exact List.sum_le_sum fun p _ => min_le_left _ _
  · unfold hybrid_mean_cer wav2vec2_lenient_mean qmean
    simp only [List.length_map]
    rw [div_le_div_iff_of_pos_right hl]
    exact List.sum_le_sum fun p _ => min_le_right _ _

/-- Witness for `hybrid_mean_le_min` at the one-entry list `[(some 1, some 2)]`. -/
theorem hybrid_mean_le_min_witness :
    hybrid_mean_cer [((some 1 : Option ℚ), (some 2 : Option ℚ))] ≤
      min (whisper_lenient_mean [((some 1 : Option ℚ), (some 2 : Option ℚ))])
        (wav2vec2_lenient_mean [((some 1 : Option ℚ), (some 2 : Option ℚ))]) :=
  hybrid_mean_le_min _ (by decide)

/- ------------------------------------------------------------------ -/
/- error_analysis.py : compute_character_alignment                     -/
/- ------------------------------------------------------------------ -/

/-- One row-filling step of the Levenshtein matrix of
`ErrorAnalyzer.compute_character_alignment`
(`src/api/analysis/error_analysis.py`, lines 46-66): given row `i` of the
matrix as the function `prev` (so `prev j` is `dp[i][j]`), computes row
`i+1`.  Cell `(i+1, j+1)` is `prev j` when `t[i] == a[j]`, otherwise
`1 + min(deletion, insertion, substitution)` exactly as in the source. -/
def dpRow (t a : List String) (i : Nat) (prev : Nat → Nat) : Nat → Nat
  | 0 => i + 1
  | j+1 =>
    if t.getD i "" = a.getD j "" then prev j
    else 1 + min (prev (j+1)) (min (dpRow t a i prev j) (prev j))

/-- The Levenshtein matrix `dp` of `compute_character_alignment`
(`src/api/analysis/error_analysis.py`, lines 46-66): `dp t a i j` is the
cell `dp[i][j]`, with base cases `dp[i][0] = i`, `dp[0][j] = j` and the
row-by-row fill of `dpRow`. -/
def dp (t a : List String) : Nat → Nat → Nat
  | 0 => fun j => j
  | i+1 => dpRow t a i (dp t a i)

/-- `dp[0][j] = j`. -/
lemma dp_zero_left (t a : List String) (j : Nat) : dp t a 0 j = j := rfl

/-- `dp[i+1][0] = i+1`. -/
lemma dp_succ_zero (t a : List String) (i : Nat) : dp t a (i+1) 0 = i + 1 := rfl

/-- `dp[i][0] = i`. -/
lemma dp_zero_right (t a : List String) (i : Nat) : dp t a i 0 = i := by
  cases i <;> rfl

/-- The recurrence of the source, literally: cell `(i+1, j+1)` is `dp[i][j]`
on equal tokens, else `1 + min(dp[i][j+1], dp[i+1][j], dp[i][j])`
(deletion, insertion, substitution). -/
lemma dp_succ_succ (t a : List String) (i j : Nat) :
    dp t a (i+1) (j+1) =
      if t.getD i "" = a.getD j "" then dp t a i j
      else 1 + min (dp t a i (j+1)) (min (dp t a (i+1) j) (dp t a i j)) := rfl

/-- The backtracking `while i > 0 or j > 0` loop of
`compute_character_alignment` (`src/api/analysis/error_analysis.py`,
lines 68-90), with an explicit fuel argument standing for the loop's
termination (each iteration decreases `i + j` by at least one, so any fuel
of at least `i + j` runs the loop to completion; `backtrack_branches` below
shows one of the loop's four branches always fires).  The branch conditions
and their order are exactly those of the source's `elif` chain. -/
def backtrackAux (t a : List String) : Nat → Nat → Nat → List (String × String × String)
  | 0, _, _ => []
  | fuel+1, i, j =>
    if i = 0 ∧ j = 0 then []
    else if 0 < i ∧ 0 < j ∧ t.getD (i-1) "" = a.getD (j-1) "" then
      ("match", t.getD (i-1) "", a.getD (j-1) "") :: backtrackAux t a fuel (i-1) (j-1)
    else if 0 < i ∧ 0 < j ∧ dp t a i j = dp t a (i-1) (j-1) + 1 then
      ("substitution", t.getD (i-1) "", a.getD (j-1) "") :: backtrackAux t a fuel (i-1) (j-1)
    else if 0 < i ∧ dp t a i j = dp t a (i-1) j + 1 then
      ("deletion", t.getD (i-1) "", "") :: backtrackAux t a fuel (i-1) j
    else if 0 < j ∧ dp t a i j = dp t a i (j-1) + 1 then
      ("insertion", "", a.getD (j-1) "") :: backtrackAux t a fuel i (j-1)
    else []

/-- Embeds `ErrorAnalyzer.compute_character_alignment`
(`src/api/analysis/error_analysis.py`, lines 27-93): run the backtracking
loop from `(m, n)` and reverse the collected operations. -/
def compute_character_alignment (t a : List String) : List (String × String × String) :=
  (backtrackAux t a (t.length + a.length) t.length a.length).reverse

example : compute_character_alignment ["a","b","c"] ["a","x","c"] =
    [("match", "a", "a"), ("substitution", "b", "x"), ("match", "c", "c")] := by decide

example : compute_character_alignment ["a","b"] [] =
    [("deletion", "a", ""), ("deletion", "b", "")] := by decide

example : dp ["k","i","t","t","e","n"] ["s","i","t","t","i","n","g"] 6 7 = 3 := by decide

/-- Whenever `(i, j) ≠ (0, 0)`, one of the four branches of the backtracking
loop fires (so the source's `while` loop never spins without progress). -/
lemma backtrack_branches (t a : List String) (i j : Nat) (h : ¬(i = 0 ∧ j = 0)) :
    (0 < i ∧ 0 < j ∧ t.getD (i-1) "" = a.getD (j-1) "") ∨
    (0 < i ∧ 0 < j ∧ dp t a i j = dp t a (i-1) (j-1) + 1) ∨
    (0 < i ∧ dp t a i j = dp t a (i-1) j + 1) ∨
    (0 < j ∧ dp t a i j = dp t a i (j-1) + 1) := by
  match i, j with
  | 0, 0 => exact absurd ⟨rfl, rfl⟩ h
  | 0, j+1 =>
    refine Or.inr (Or.inr (Or.inr ⟨Nat.succ_pos j, ?_⟩))
    simp [dp_zero_left]
  | i+1, 0 =>
    refine Or.inr (Or.inr (Or.inl ⟨Nat.succ_pos i, ?_⟩))
    simp [dp_succ_zero, dp_zero_right]
  | i+1, j+1 =>
    by_cases teq : t.getD i "" = a.getD j ""
    · exact Or.inl ⟨Nat.succ_pos i, Nat.succ_pos j, by simpa using teq⟩
    · refine Or.inr ?_
      simp only [Nat.add_sub_cancel]
      rw [dp_succ_succ, if_neg teq]
      omega

/-- Taking one more element appends the element at index `k`. -/
lemma take_succ_getD (l : List String) (k : Nat) (hk : k < l.length) :
    l.take (k+1) = l.take k ++ [l.getD k ""] := by
  rw [List.take_succ, List.getElem?_eq_getElem hk]
  simp [List.getD_eq_getElem?_getD, List.getElem?_eq_getElem hk]

/-- An in-range element of a list avoiding `""` is not `""`. -/
lemma getD_ne_of_not_mem (l : List String) (k : Nat) (hk : k < l.length)
    (h : "" ∉ l) : l.getD k "" ≠ "" := by
  intro he
  apply h
  rw [← he]
  rw [List.getD_eq_getElem?_getD, List.getElem?_eq_getElem hk]
  exact List.getElem_mem hk

/-- Along the backtracking loop, the number of non-match operations emitted
from `(i, j)` is exactly `dp[i][j]`. -/
lemma backtrackAux_countEdits (t a : List String) :
    ∀ (fuel i j : Nat), i + j ≤ fuel →
      (backtrackAux t a fuel i j).countP (fun op => !(op.1 == "match")) = dp t a i j := by
  intro fuel
  induction fuel with
  | zero =>
    intro i j hij
    have hi : i = 0 := by omega
    have hj : j = 0 := by omega
    subst hi; subst hj
    rfl
  | succ fuel ih =>
    intro i j hij
    rw [backtrackAux]
    split_ifs with h1 h2 h3 h4 h5
    · obtain ⟨rfl, rfl⟩ := h1
      simp [dp_zero_left]
    · obtain ⟨hi, hj, teq⟩ := h2
      obtain ⟨i', rfl⟩ : ∃ k, i = k + 1 := ⟨i - 1, by omega⟩
      obtain ⟨j', rfl⟩ : ∃ k, j = k + 1 := ⟨j - 1, by omega⟩
      simp only [Nat.add_sub_cancel] at teq ⊢
      rw [List.countP_cons, ih i' j' (by omega), dp_succ_succ, if_pos teq]
      simp
    · obtain ⟨hi, hj, hdp⟩ := h3
      obtain ⟨i', rfl⟩ : ∃ k, i = k + 1 := ⟨i - 1, by omega⟩
      obtain ⟨j', rfl⟩ : ∃ k, j = k + 1 := ⟨j - 1, by omega⟩
      simp only [Nat.add_sub_cancel] at hdp ⊢
      rw [List.countP_cons, ih i' j' (by omega), hdp]
      simp
    · obtain ⟨hi, hdp⟩ := h4
      obtain ⟨i', rfl⟩ : ∃ k, i = k + 1 := ⟨i - 1, by omega⟩
      simp only [Nat.add_sub_cancel] at hdp ⊢
      rw [List.countP_cons, ih i' j (by omega), hdp]
      simp
    · obtain ⟨hj, hdp⟩ := h5
      obtain ⟨j', rfl⟩ : ∃ k, j = k + 1 := ⟨j - 1, by omega⟩
      simp only [Nat.add_sub_cancel] at hdp ⊢
      rw [List.countP_cons, ih i j' (by omega), hdp]
      simp
    · exfalso
      rcases backtrack_branches t a i j h1 with h | h | h | h
      · exact h2 h
      · exact h3 h
      · exact h4 h
      · exact h5 h

/-- The expected-side value of an operation, kept when nonempty (the source
encodes the gap of an insertion as the empty string). -/
def expTok (op : String × String × String) : Option String :=
  if op.2.1 = "" then none else some op.2.1

/-- The actual-side value of an operation, kept when nonempty (the source
encodes the gap of a deletion as the empty string). -/
def actTok (op : String × String × String) : Option String :=
  if op.2.2 = "" then none else some op.2.2

/-- From `(i, j)`, the nonempty expected-side values emitted by the loop are
the first `i` reference tokens, reversed (the loop walks backwards). -/
lemma backtrackAux_expected (t a : List String) (ht : "" ∉ t) :
    ∀ (fuel i j : Nat), i + j ≤ fuel → i ≤ t.length → j ≤ a.length →
      (backtrackAux t a fuel i j).filterMap expTok = (t.take i).reverse := by
  intro fuel
  induction fuel with
  | zero =>
    intro i j hij hi hj
    have h0 : i = 0 := by omega
    subst h0
    rfl
  | succ fuel ih =>
    intro i j hij hi hj
    rw [backtrackAux]
    split_ifs with h1 h2 h3 h4 h5
    · obtain ⟨rfl, rfl⟩ := h1
      rfl
    · obtain ⟨hipos, hjpos, teq⟩ := h2
      obtain ⟨i', rfl⟩ : ∃ k, i = k + 1 := ⟨i - 1, by omega⟩
      obtain ⟨j', rfl⟩ : ∃ k, j = k + 1 := ⟨j - 1, by omega⟩
      simp only [Nat.add_sub_cancel] at teq ⊢
      have hne := getD_ne_of_not_mem t i' (by omega) ht
      rw [List.filterMap_cons, show expTok ("match", t.getD i' "", a.getD j' "") =
        some (t.getD i' "") from if_neg hne]
      rw [ih i' j' (by omega) (by omega) (by omega)]
      rw [take_succ_getD t i' (by omega), List.reverse_append]
      rfl
    · obtain ⟨hipos, hjpos, hdp⟩ := h3
      obtain ⟨i', rfl⟩ : ∃ k, i = k + 1 := ⟨i - 1, by omega⟩
      obtain ⟨j', rfl⟩ : ∃ k, j = k + 1 := ⟨j - 1, by omega⟩
      simp only [Nat.add_sub_cancel] at hdp ⊢
      have hne := getD_ne_of_not_mem t i' (by omega) ht
      rw [List.filterMap_cons, show expTok ("substitution", t.getD i' "", a.getD j' "") =
        some (t.getD i' "") from if_neg hne]
      rw [ih i' j' (by omega) (by omega) (by omega)]
      rw [take_succ_getD t i' (by omega), List.reverse_append]
      rfl
    · obtain ⟨hipos, hdp⟩ := h4
      obtain ⟨i', rfl⟩ : ∃ k, i = k + 1 := ⟨i - 1, by omega⟩
      simp only [Nat.add_sub_cancel] at hdp ⊢
      have hne := getD_ne_of_not_mem t i' (by omega) ht
      rw [List.filterMap_cons, show expTok ("deletion", t.getD i' "", "") =
        some (t.getD i' "") from if_neg hne]
      rw [ih i' j (by omega) (by omega) (by omega)]
      rw [take_succ_getD t i' (by omega), List.reverse_append]
      rfl
    · obtain ⟨hjpos, hdp⟩ := h5
      obtain ⟨j', rfl⟩ : ∃ k, j = k + 1 := ⟨j - 1, by omega⟩
      simp only [Nat.add_sub_cancel] at hdp ⊢
      rw [List.filterMap_cons, show expTok ("insertion", "", a.getD j' "") = none from rfl]
      exact ih i j' (by omega) (by omega) (by omega)
    · exfalso
      rcases backtrack_branches t a i j h1 with h | h | h | h
      · exact h2 h
      · exact h3 h
      · exact h4 h
      · exact h5 h

/-- From `(i, j)`, the nonempty actual-side values emitted by the loop are
the first `j` hypothesis tokens, reversed. -/
lemma backtrackAux_actual (t a : List String) (ha : "" ∉ a) :
    ∀ (fuel i j : Nat), i + j ≤ fuel → i ≤ t.length → j ≤ a.length →
      (backtrackAux t a fuel i j).filterMap actTok = (a.take j).reverse := by
  intro fuel
  induction fuel with
  | zero =>
    intro i j hij hi hj
    have h0 : j = 0 := by omega
    subst h0
    rfl
  | succ fuel ih =>
    intro i j hij hi hj
    rw [backtrackAux]
    split_ifs with h1 h2 h3 h4 h5
    · obtain ⟨rfl, rfl⟩ := h1
      rfl
    · obtain ⟨hipos, hjpos, teq⟩ := h2
      obtain ⟨i', rfl⟩ : ∃ k, i = k + 1 := ⟨i - 1, by omega⟩
      obtain ⟨j', rfl⟩ : ∃ k, j = k + 1 := ⟨j - 1, by omega⟩
      simp only [Nat.add_sub_cancel] at teq ⊢
      have hne := getD_ne_of_not_mem a j' (by omega) ha
      rw [List.filterMap_cons, show actTok ("match", t.getD i' "", a.getD j' "") =
        some (a.getD j' "") from if_neg hne]
      rw [ih i' j' (by omega) (by omega) (by omega)]
      rw [take_succ_getD a j' (by omega), List.reverse_append]
      rfl
    · obtain ⟨hipos, hjpos, hdp⟩ := h3
      obtain ⟨i', rfl⟩ : ∃ k, i = k + 1 := ⟨i - 1, by omega⟩
      obtain ⟨j', rfl⟩ : ∃ k, j = k + 1 := ⟨j - 1, by omega⟩
      simp only [Nat.add_sub_cancel] at hdp ⊢
      have hne := getD_ne_of_not_mem a j' (by omega) ha
      rw [List.filterMap_cons, show actTok ("substitution", t.getD i' "", a.getD j' "") =
        some (a.getD j' "") from if_neg hne]
      rw [ih i' j' (by omega) (by omega) (by omega)]
      rw [take_succ_getD a j' (by omega), List.reverse_append]
      rfl
    · obtain ⟨hipos, hdp⟩ := h4
      obtain ⟨i', rfl⟩ : ∃ k, i = k + 1 := ⟨i - 1, by omega⟩
      simp only [Nat.add_sub_cancel] at hdp ⊢
      rw [List.filterMap_cons, show actTok ("deletion", t.getD i' "", "") = none from rfl]
      exact ih i' j (by omega) (by omega) (by omega)
    · obtain ⟨hjpos, hdp⟩ := h5
      obtain ⟨j', rfl⟩ : ∃ k, j = k + 1 := ⟨j - 1, by omega⟩
      simp only [Nat.add_sub_cancel] at hdp ⊢
      have hne := getD_ne_of_not_mem a j' (by omega) ha
      rw [List.filterMap_cons, show actTok ("insertion", "", a.getD j' "") =
        some (a.getD j' "") from if_neg hne]
      rw [ih i j' (by omega) (by omega) (by omega)]
      rw [take_succ_getD a j' (by omega), List.reverse_append]
      rfl
    · exfalso
      rcases backtrack_branches t a i j h1 with h | h | h | h
      · exact h2 h
      · exact h3 h
      · exact h4 h
      · exact h5 h

/-- Claim C1: for token sequences (a token of the source's tokenizer is a
nonempty string; the empty string is the gap sentinel of the alignment
encoding), the nonempty expected-side values of `compute_character_alignment`
reconstruct the reference exactly, and the nonempty actual-side values
reconstruct the hypothesis exactly, each covered once and in order. -/
theorem compute_character_alignment_covers (t a : List String)
    (ht : "" ∉ t) (ha : "" ∉ a) :
    (compute_character_alignment t a).filterMap expTok = t ∧
    (compute_character_alignment t a).filterMap actTok = a := by
  constructor
  · rw [compute_character_alignment, List.filterMap_reverse,
      backtrackAux_expected t a ht _ _ _ le_rfl le_rfl le_rfl,
      List.take_length, List.reverse_reverse]
  · rw [compute_character_alignment, List.filterMap_reverse,
      backtrackAux_actual t a ha _ _ _ le_rfl le_rfl le_rfl,
      List.take_length, List.reverse_reverse]

/-- Witness for `compute_character_alignment_covers` on the concrete pair
`(["a","b"], ["a","c"])`. -/
theorem compute_character_alignment_covers_witness :
    (compute_character_alignment ["a", "b"] ["a", "c"]).filterMap expTok = ["a", "b"] ∧
    (compute_character_alignment ["a", "b"] ["a", "c"]).filterMap actTok = ["a", "c"] :=
  compute_character_alignment_covers ["a", "b"] ["a", "c"] (by decide) (by decide)

/-- Claim C2 (counterexample): the total number of operations returned is
NOT the DP edit distance: aligning `["a"]` with itself returns one (match)
operation while `dp[1][1] = 0`. -/
theorem alignment_length_counterexample :
    ((compute_character_alignment ["a"] ["a"]).length == dp ["a"] ["a"] 1 1) = false := by
  decide

/-- Claim C2 (amended): the number of NON-MATCH operations (substitutions,
deletions and insertions) returned by `compute_character_alignment` equals
the DP-computed edit distance `dp[m][n]`. -/
theorem compute_character_alignment_edit_count (t a : List String) :
    (compute_character_alignment t a).countP (fun op => !(op.1 == "match")) =
      dp t a t.length a.length := by
  rw [compute_character_alignment, List.countP_reverse]
  exact backtrackAux_countEdits t a (t.length + a.length) _ _ le_rfl

/-- From `(i, i)` on two equal lists the loop emits only match operations,
one per token of the first `i`. -/
lemma backtrackAux_self (t : List String) :
    ∀ (fuel i : Nat), i + i ≤ fuel → i ≤ t.length →
      backtrackAux t t fuel i i =
        ((t.take i).map (fun x => ("match", x, x))).reverse := by
  intro fuel
  induction fuel with
  | zero =>
    intro i hif hi
    have h0 : i = 0 := by omega
    subst h0
    rfl
  | succ fuel ih =>
    intro i hif hi
    match i with
    | 0 => rw [backtrackAux, if_pos ⟨rfl, rfl⟩]; rfl
    | i'+1 =>
      rw [backtrackAux, if_neg (by omega),
        if_pos ⟨Nat.succ_pos i', Nat.succ_pos i', rfl⟩]
      simp only [Nat.add_sub_cancel]
      rw [ih i' (by omega) (by omega)]
      rw [take_succ_getD t i' (by omega), List.map_append, List.reverse_append]
      rfl

/-- Claim C3: aligning a token sequence with itself yields exactly one match
operation per token, in order. -/
theorem compute_character_alignment_self (t : List String) :
    compute_character_alignment t t = t.map (fun x => ("match", x, x)) := by
  rw [compute_character_alignment,
    backtrackAux_self t (t.length + t.length) t.length le_rfl le_rfl,
    List.take_length, List.reverse_reverse]

/- ------------------------------------------------------------------ -/
/- error_analysis.py / linguistic_analysis.py : confusion emission     -/
/- ------------------------------------------------------------------ -/

/-- Python `s.strip('⟨⟩')` (`src/api/analysis/error_analysis.py`,
lines 130-131): removes leading and trailing digraph-marker characters. -/
def stripMarkChars (s : String) : String :=
  String.mk (((s.toList.dropWhile fun c => c = '⟨' || c = '⟩').reverse.dropWhile
    fun c => c = '⟨' || c = '⟩').reverse)

/-- The token-filter skip logic of `build_error_stats`
(`src/api/analysis/error_analysis.py`, lines 111-127): with a truthy filter,
substitutions/deletions and matches are kept when the expected token's class
matches the filter, insertions when the actual token's class does; an empty
token classifies as `None` (Python's conditional expression). -/
def filterSkips (tokenFilter : Option String) (operation expected actual : String) : Bool :=
  match tokenFilter with
  | none => false
  | some tf =>
    if tf = "" then false
    else
      let expectedType : Option String :=
        if expected = "" then none else some (classify_token expected)
      let actualType : Option String :=
        if actual = "" then none else some (classify_token actual)
      if operation = "substitution" || operation = "deletion" then
        !(expectedType == some tf)
      else if operation = "insertion" then
        !(actualType == some tf)
      else if operation = "match" then
        !(expectedType == some tf)
      else false

/-- `confusion_matrix[key] = confusion_matrix.get(key, 0) + 1` on a Python
dict modelled as an insertion-ordered association list: a fresh key is
appended at the end, an existing key is incremented in place. -/
def bump (l : List ((String × String) × Nat)) (k : String × String) :
    List ((String × String) × Nat) :=
  match l with
  | [] => [(k, 1)]
  | (k', c) :: rest => if k' = k then (k', c + 1) :: rest else (k', c) :: bump rest k

/-- One loop iteration of the confusion-matrix accumulation of
`build_error_stats` (`src/api/analysis/error_analysis.py`, lines 110-145):
skip filtered operations, and count every non-match operation under its
display key (digraph markers stripped). -/
def confusionStep (tokenFilter : Option String) (acc : List ((String × String) × Nat))
    (op : String × String × String) : List ((String × String) × Nat) :=
  if filterSkips tokenFilter op.1 op.2.1 op.2.2 then acc
  else if op.1 = "match" then acc
  else bump acc (stripMarkChars op.2.1, stripMarkChars op.2.2)

/-- Embeds the `confusion_matrix_list` emission of `build_error_stats`
(`src/api/analysis/error_analysis.py`, lines 154-158): the accumulated dict
is converted to a list of `(expected, actual, count)` records by iterating
it in Python's dict order, i.e. insertion order — no sorting happens. -/
def build_error_stats_confusion (alignments : List (String × String × String))
    (tokenFilter : Option String) : List (String × String × Nat) :=
  (alignments.foldl (confusionStep tokenFilter) []).map fun e => (e.1.1, e.1.2, e.2)

/-- The emitted counts are non-increasing from head to tail. -/
def countsSortedDesc : List (String × String × Nat) → Bool
  | [] => true
  | [_] => true
  | x :: y :: rest => decide (y.2.2 ≤ x.2.2) && countsSortedDesc (y :: rest)

/-- The comparison of Python's
`sorted(stats["confusion"].items(), key=lambda x: x[1], reverse=True)`
(`src/api/analysis/linguistic_analysis.py`, lines 145-149): `x` precedes `y`
when `y`'s count is at most `x`'s. -/
def confusionLE (x y : (String × String) × Nat) : Bool := decide (y.2 ≤ x.2)

/-- Embeds the per-category confusion emission of
`_analyze_model_errors_by_category`
(`src/api/analysis/linguistic_analysis.py`, lines 142-155): the accumulated
confusion pairs are stably sorted by count descending (Python's `sorted` is
stable, as is `List.mergeSort`), truncated to the top 15, and emitted as
`(expected, actual, count)` records. -/
def linguistic_confusion_matrix (confusion : List ((String × String) × Nat)) :
    List (String × String × Nat) :=
  ((confusion.mergeSort confusionLE).take 15).map fun e => (e.1.1, e.1.2, e.2)

/-- Claim C8 (counterexample): `build_error_stats` emits the confusion list
in first-seen insertion order, not sorted by count descending: on a run with
one `a→b` error followed by two `c→d` errors, the emitted list is
`[(a,b,1), (c,d,2)]`, whose counts are increasing. -/
theorem confusion_emission_counterexample :
    build_error_stats_confusion
      [("substitution","a","b"), ("substitution","c","d"), ("substitution","c","d")] none =
      [("a", "b", 1), ("c", "d", 2)] ∧
    countsSortedDesc (build_error_stats_confusion
      [("substitution","a","b"), ("substitution","c","d"), ("substitution","c","d")] none)
      = false := by
  exact ⟨by decide, by decide⟩

/-- The sort comparison is transitive. -/
lemma confusionLE_trans : ∀ a b c : (String × String) × Nat,
    confusionLE a b → confusionLE b c → confusionLE a c := by
  intro a b c hab hbc
  simp only [confusionLE, decide_eq_true_eq] at *
  omega

/-- The sort comparison is total. -/
lemma confusionLE_total : ∀ a b : (String × String) × Nat,
    confusionLE a b || confusionLE b a := by
  intro a b
  simp only [confusionLE]
  rcases Nat.le_total a.2 b.2 with h | h <;> simp [h]

/-- Mapping association pairs to records preserves descending counts. -/
lemma countsSortedDesc_map (l : List ((String × String) × Nat))
    (h : List.Pairwise (fun x y => y.2 ≤ x.2) l) :
    countsSortedDesc (l.map fun e => (e.1.1, e.1.2, e.2)) = true := by
  induction l with
  | nil => rfl
  | cons x xs ih =>
    cases xs with
    | nil => rfl
    | cons y ys =>
      rw [List.map_cons, List.map_cons, countsSortedDesc]
      rcases List.pairwise_cons.mp h with ⟨hx, ht⟩
      have h1 : y.2 ≤ x.2 := hx y (List.mem_cons_self _ _)
      have h2 := ih ht
      rw [List.map_cons] at h2
      simp [h1, h2]

/-- Claim C8 (amended): the per-category confusion matrix emitted by
`_analyze_model_errors_by_category` is sorted by count descending, and its
stable sort keeps entries with tied counts in first-seen order (a tied pair
that appears in a given order in the accumulated list still appears in that
order after sorting); `build_error_stats` itself emits in insertion order
(see the counterexample). -/
theorem linguistic_confusion_sorted :
    (∀ confusion, countsSortedDesc (linguistic_confusion_matrix confusion) = true) ∧
    (∀ (confusion : List ((String × String) × Nat)) (x y : (String × String) × Nat),
      [x, y].Sublist confusion → x.2 = y.2 →
      [x, y].Sublist (confusion.mergeSort confusionLE)) := by
  constructor
  · intro confusion
    apply countsSortedDesc_map
    have hs : (confusion.mergeSort confusionLE).Pairwise fun a b => confusionLE a b :=
      List.sorted_mergeSort confusionLE_trans confusionLE_total confusion
    have hs2 : ((confusion.mergeSort confusionLE).take 15).Pairwise fun a b => confusionLE a b :=
      List.Pairwise.sublist (List.take_sublist 15 _) hs
    exact hs2.imp fun h => by simpa [confusionLE] using h
  · intro confusion x y hsub htie
    exact List.pair_sublist_mergeSort confusionLE_trans confusionLE_total
      (by simp [confusionLE, htie]) hsub

/-- Witness for `linguistic_confusion_sorted` on a concrete two-element tie. -/
theorem linguistic_confusion_sorted_witness :
    [((("a", "b"), 1) : (String × String) × Nat), (("c", "d"), 1)].Sublist
      (([(("a", "b"), 1), (("c", "d"), 1)] :
        List ((String × String) × Nat)).mergeSort confusionLE) :=
  linguistic_confusion_sorted.2 [(("a", "b"), 1), (("c", "d"), 1)]
    (("a", "b"), 1) (("c", "d"), 1) (List.Sublist.refl _) rfl
